import Mathlib

/-!
# Shallow embedding of `src/SQuery.js`

The repository implements a small DOM-manipulation façade: the entry point `$`
normalizes a selector string, a single node, or a node collection into a
`Query` object (the spec's "Handle"), whose prototype methods read and mutate
the underlying document tree.  `$.forQuery` replays a named prototype method
over every element of a collection.

The document tree is modelled as a finite store of nodes indexed by `Nat`
(a node id plays the role of a JS object reference, so "reference identical"
means "equal id").  The external collaborators the spec scopes out
(`document.querySelectorAll`, CSS value validation, event subscription) are
either passed in as functions or marked with the dedicated `JsErr.unmodeled`
error; no theorem below evaluates such a branch.

JavaScript dynamic values are embedded as `JsValue`; an exception thrown by
the code is an `Except.error`.  `JsErr.thrown` carries the literal message
strings that appear in the source; `JsErr.typeError` stands for the native
TypeError raised by a property access on `undefined`/`null`; and
`JsErr.domException` for the token validation performed by `classList`.
-/

namespace SQuery

/-- A document node: class token list (the serialized `className` is the
space-joined token list), attributes, inline/computed style properties,
text and markup content, and tree links. -/
structure Node where
  classes : List String := []
  attrs : List (String × String) := []
  styles : List (String × String) := []
  innerText : String := ""
  innerHTML : String := ""
  parent : Option Nat := none
  children : List Nat := []
deriving DecidableEq, Repr

/-- The document tree: a distinguished `document` node id plus a finite store
of nodes.  A `Nat` key models a JS object reference. -/
structure Dom where
  documentId : Nat
  nodes : List (Nat × Node)
deriving DecidableEq, Repr

/-- First-binding association lookup in the node store. -/
def lookupNode : List (Nat × Node) → Nat → Option Node
  | [], _ => none
  | p :: t, i => if p.1 = i then some p.2 else lookupNode t i

def Dom.find (d : Dom) (i : Nat) : Option Node :=
  lookupNode d.nodes i

def Dom.setNode (d : Dom) (i : Nat) (n : Node) : Dom :=
  { d with nodes := d.nodes.map (fun p => if p.1 = i then (i, n) else p) }

/-- The `Query` object built by the `Query` constructor function
(`src/SQuery.js:38`): the indexed items `this[0..length-1]` and the
`selector` property.  `selector = none` models the property being absent —
the single-node branch of the constructor returns before assigning it. -/
structure Query where
  items : List Nat
  selector : Option String
deriving DecidableEq, Repr

def Query.length (q : Query) : Nat := q.items.length

/-- A JavaScript runtime value, as far as the embedded code needs it. -/
inductive JsValue where
  | undefined
  | null
  | bool (b : Bool)
  | num (n : Int)
  | str (s : String)
  | obj (fields : List (String × JsValue))
  | arr (elems : List JsValue)
  | node (id : Nat)
  | handle (q : Query)

/-- A raised JS exception.  `thrown` carries the literal message string from a
`throw` statement in the source; `typeError` is the native error from
dereferencing `undefined`/`null` (a dangling node id is treated the same
way — handle items are assumed to be live references); `domException` is the
`classList` token validation; `unmodeled` marks a branch that consults an
external collaborator (selector resolution, event binding) outside this
development — no theorem evaluates such a branch. -/
inductive JsErr where
  | thrown (msg : String)
  | typeError
  | domException
  | unmodeled (what : String)
deriving DecidableEq, Repr

mutual

/-- JS string coercion `String(v)` for the values this embedding handles. -/
def jsToString : JsValue → String
  | .undefined => "undefined"
  | .null => "null"
  | .bool true => "true"
  | .bool false => "false"
  | .num n => toString n
  | .str s => s
  | .obj _ => "[object Object]"
  | .arr xs => jsToStringList xs
  | .node _ => "[object HTMLElement]"
  | .handle _ => "[object Object]"

/-- `Array.prototype.toString`: comma-joined element strings, where `null`
and `undefined` elements serialize as the empty string. -/
def jsToStringList : List JsValue → String
  | [] => ""
  | [.undefined] => ""
  | [.null] => ""
  | [v] => jsToString v
  | .undefined :: rest => "," ++ jsToStringList rest
  | .null :: rest => "," ++ jsToStringList rest
  | v :: rest => jsToString v ++ "," ++ jsToStringList rest

end

/-- JS truthiness (the embedding carries no NaN, so a number is truthy iff
it is nonzero). -/
def jsTruthy : JsValue → Bool
  | .undefined => false
  | .null => false
  | .bool b => b
  | .num n => n ≠ 0
  | .str s => s ≠ ""
  | _ => true

/-- JS loose equality `v == "lit"` against a string literal.  For the
literals compared in the source (`"string"`), a string operand compares by
content and every non-string operand the embedding produces coerces to a
value different from the literal. -/
def jsLooseEqStrLit : JsValue → String → Bool
  | .str t, s => t = s
  | _, _ => false

/-- JS loose equality `v == undefined`: true exactly for `undefined` and
`null`. -/
def jsLooseEqUndefined : JsValue → Bool
  | .undefined => true
  | .null => true
  | _ => false

/-- The expression `name == "string" || "number" ? true : false` from the
two-argument branches of `css`/`attr` (`src/SQuery.js:178`, `:213`): the
`||` returns the first truthy operand, so the branch condition is the
truthiness of either `true` or the (truthy) string `"number"`. -/
def isArgCheck (name : JsValue) : Bool :=
  jsTruthy (if jsLooseEqStrLit name "string" then .bool true else .str "number")

/-- The shapes a value passed to the `Query` constructor can take. -/
inductive QueryArg where
  | single (id : Nat)
  | list (ids : List Nat)
  | jsNull
  | jsUndef
deriving DecidableEq, Repr

/-- The `Query(dom, selector)` constructor (`src/SQuery.js:38`):
`this.length = dom ? dom.length : 0`; a node-like object (no `length`)
becomes a one-item query and returns before `this.selector` is assigned;
a list copies its entries in order and stores `selector || ""`;
`null` is typeof `"object"` so `null.length` raises a TypeError;
`undefined` is falsy and not typeof `"object"`, giving an empty query. -/
def Query.construct : QueryArg → Option String → Except JsErr Query
  | .jsNull, _ => .error .typeError
  | .jsUndef, sel => .ok { items := [], selector := some (sel.getD "") }
  | .single id, _ => .ok { items := [id], selector := none }
  | .list ids, sel => .ok { items := ids, selector := some (sel.getD "") }

/-- The shapes a value passed to the entry point `$` can take.  `other`
stands for a number, boolean, or function (typeof neither `"object"` nor
`"string"`). -/
inductive JsInput where
  | nodeObj (id : Nat)
  | collection (ids : List Nat)
  | jsStr (s : String)
  | jsNull
  | other
deriving DecidableEq, Repr

/-- The literal message of the entry point's `throw` (`src/SQuery.js:22`). -/
def invalidInputMsg : String := "请传入合法 selector 字符和 dom 对象！"

/-- The entry point `$(nodeSelector)` (`src/SQuery.js:11`).  `qsa` is the
external `document.querySelectorAll` collaborator.  A node-like object
(typeof `"object"`, `length == undefined`) and a collection with
`length >= 1` are wrapped directly; a collection of length 0 falls through
both object branches and hits the not-a-string guard, which throws;
`null` is typeof `"object"` and `null.length` raises a TypeError. -/
def dollar (qsa : String → List Nat) : JsInput → Except JsErr Query
  | .nodeObj id => Query.construct (.single id) none
  | .collection ids =>
      if ids.length ≥ 1 then Query.construct (.list ids) none
      else .error (.thrown invalidInputMsg)
  | .jsStr s => Query.construct (.list (qsa s)) (some s)
  | .jsNull => .error .typeError
  | .other => .error (.thrown invalidInputMsg)

/-- `this[0]` as a JS value reference: `undefined` on an empty query. -/
def Query.item0 (q : Query) : Option Nat := q.items.head?

/-- A property access on `this[0]`: accessing a property of `undefined`
raises a TypeError; a present id must reference a live node. -/
def derefNode (d : Dom) : Option Nat → Except JsErr (Nat × Node)
  | none => .error .typeError
  | some id =>
      match d.find id with
      | some nd => .ok (id, nd)
      | none => .error .typeError

/-- Set a key in an association list, keeping first-binding order (the
behavior of `setAttribute` / `style.setProperty` on the modelled store). -/
def assocSet (xs : List (String × String)) (k v : String) : List (String × String) :=
  if xs.any (fun p => p.1 = k) then xs.map (fun p => if p.1 = k then (k, v) else p)
  else xs ++ [(k, v)]

/-- The camel-to-kebab rewrite in the bulk branch of `css`
(`src/SQuery.js:160`): if the key contains an ASCII uppercase letter,
every uppercase letter is replaced by `-` plus its lowercase form. -/
def camelToKebab (key : String) : String :=
  if key.toList.any Char.isUpper then
    String.mk (key.toList.foldr
      (fun c acc => if c.isUpper then '-' :: c.toLower :: acc else c :: acc) [])
  else key

/-- Split a character stream into space-separated tokens (`acc` holds the
reversed characters of the token being read). -/
def parseTokens : List Char → List Char → List String
  | [], acc => if acc.isEmpty then [] else [String.mk acc.reverse]
  | c :: rest, acc =>
      if c = ' ' then
        if acc.isEmpty then parseTokens rest []
        else String.mk acc.reverse :: parseTokens rest []
      else parseTokens rest (c :: acc)

/-- Parse a `className` string back into the token list (split on spaces,
dropping empty tokens), so that `className = ""` clears the class set. -/
def parseClassName (s : String) : List String :=
  parseTokens s.toList []

/-- HTML whitespace, as validated by `DOMTokenList`. -/
def hasHtmlWhitespace (s : String) : Bool :=
  s.toList.any (fun c => c = ' ' ∨ c = '\t' ∨ c = '\n' ∨ c = '\x0c' ∨ c = '\r')

/-- `classList.add(t)`: rejects the empty token and whitespace (the
`DOMTokenList` validation), appends the token if not already present. -/
def classListAdd (cs : List String) (t : String) : Except JsErr (List String) :=
  if t = "" then .error .domException
  else if hasHtmlWhitespace t then .error .domException
  else .ok (if cs.contains t then cs else cs ++ [t])

/-- `classList.remove(t)`: same token validation, removes every occurrence. -/
def classListRemove (cs : List String) (t : String) : Except JsErr (List String) :=
  if t = "" then .error .domException
  else if hasHtmlWhitespace t then .error .domException
  else .ok (cs.filter (fun c => c ≠ t))

/-- One `dom.classList.add(t)` step against the store. -/
def addClassLeaf (d : Dom) (domRef : Option Nat) (t : String) : Except JsErr Dom := do
  let (id, nd) ← derefNode d domRef
  let cs ← classListAdd nd.classes t
  .ok (d.setNode id { nd with classes := cs })

/-- One argument of the multi-argument `addClass` branch
(`src/SQuery.js:296`): a string is added directly, an array adds each entry
(coerced to a string by `classList.add`), anything else is skipped. -/
def addClassArg (d : Dom) (domRef : Option Nat) : JsValue → Except JsErr Dom
  | .str s => addClassLeaf d domRef s
  | .arr xs => xs.foldlM (fun dd x => addClassLeaf dd domRef (jsToString x)) d
  | _ => .ok d

/-- `Query.prototype.addClass` (`src/SQuery.js:283`): no arguments throws;
a single string argument is added directly; otherwise every argument is
processed by the `arg.map` loop. -/
def Query.addClass (d : Dom) (q : Query) (args : List JsValue) :
    Except JsErr (Dom × JsValue) :=
  let dom := q.item0
  match args with
  | [] => .error (.thrown "请传入要添加的类名")
  | [.str t] => do
      let (id, nd) ← derefNode d dom
      let cs ← classListAdd nd.classes t
      .ok (d.setNode id { nd with classes := cs }, .handle q)
  | _ => do
      let d' ← args.foldlM (fun dd v => addClassArg dd dom v) d
      .ok (d', .handle q)

/-- One `dom.classList.remove(t)` step against the store. -/
def delClassLeaf (d : Dom) (domRef : Option Nat) (t : String) : Except JsErr Dom := do
  let (id, nd) ← derefNode d domRef
  let cs ← classListRemove nd.classes t
  .ok (d.setNode id { nd with classes := cs })

/-- One argument of the multi-argument `delClass` branch
(`src/SQuery.js:332`). -/
def delClassArg (d : Dom) (domRef : Option Nat) : JsValue → Except JsErr Dom
  | .str s => delClassLeaf d domRef s
  | .arr xs => xs.foldlM (fun dd x => delClassLeaf dd domRef (jsToString x)) d
  | _ => .ok d

/-- `Query.prototype.delClass` (`src/SQuery.js:315`): no arguments assigns
`dom.className = ""`; a single string argument is removed directly;
otherwise every argument is processed by the `arg.map` loop. -/
def Query.delClass (d : Dom) (q : Query) (args : List JsValue) :
    Except JsErr (Dom × JsValue) :=
  let dom := q.item0
  match args with
  | [] => do
      let (id, nd) ← derefNode d dom
      .ok (d.setNode id { nd with classes := parseClassName "" }, .handle q)
  | [.str t] => do
      let (id, nd) ← derefNode d dom
      let cs ← classListRemove nd.classes t
      .ok (d.setNode id { nd with classes := cs }, .handle q)
  | _ => do
      let d' ← args.foldlM (fun dd v => delClassArg dd dom v) d
      .ok (d', .handle q)

/-- The class token list of a node in the store. -/
def getClasses (d : Dom) (i : Nat) : List String :=
  match d.find i with
  | some nd => nd.classes
  | none => []

/-- Whether a node currently carries a class token. -/
def hasClass (d : Dom) (i : Nat) (c : String) : Bool :=
  (getClasses d i).contains c

/-- `Query.prototype.css` (`src/SQuery.js:145`).  One string argument reads
the computed value (`getPropertyValue` yields `""` for an unset property);
one plain-object argument bulk-writes each pair after the camel-to-kebab
rewrite; the two-argument branch is guarded by `arguments.length == 2 &&
isArg` where `isArg` is `isArgCheck` on the FIRST argument; any other call
shape falls off the function and returns `undefined`.  A single argument of
another object kind (`instanceof Object` but not a plain mapping) would
`for-in` over its own enumerable keys — an unmodeled shape no theorem
evaluates. -/
def Query.css (d : Dom) (q : Query) (args : List JsValue) :
    Except JsErr (Dom × JsValue) :=
  let dom := q.item0
  match args with
  | [.str p] => do
      let (_, nd) ← derefNode d dom
      .ok (d, .str ((nd.styles.lookup p).getD ""))
  | [.obj kvs] => do
      let d' ← kvs.foldlM (fun dd kv => do
        let (id, nd) ← derefNode dd dom
        .ok (dd.setNode id
          { nd with styles := assocSet nd.styles (camelToKebab kv.1) (jsToString kv.2) })) d
      .ok (d', .handle q)
  | [.arr _] => .error (.unmodeled "css: for-in over a non-plain object")
  | [.handle _] => .error (.unmodeled "css: for-in over a non-plain object")
  | [.node _] => .error (.unmodeled "css: for-in over a non-plain object")
  | _ =>
      let name := args.headD .undefined
      let value := (args.drop 1).headD .undefined
      if args.length = 2 ∧ isArgCheck name then do
        let (id, nd) ← derefNode d dom
        .ok (d.setNode id
          { nd with styles := assocSet nd.styles (jsToString name) (jsToString value) },
          .handle q)
      else .ok (d, .undefined)

/-- `Query.prototype.attr` (`src/SQuery.js:191`).  One string argument reads
the attribute (`getAttribute` yields `null` when absent); one plain-object
argument bulk-writes each pair; the two-argument branch is guarded by the
same vacuous `isArgCheck`; any other call shape returns `undefined`. -/
def Query.attr (d : Dom) (q : Query) (args : List JsValue) :
    Except JsErr (Dom × JsValue) :=
  let dom := q.item0
  match args with
  | [.str a] => do
      let (_, nd) ← derefNode d dom
      .ok (d, match nd.attrs.lookup a with
              | some v => .str v
              | none => .null)
  | [.obj kvs] => do
      let d' ← kvs.foldlM (fun dd kv => do
        let (id, nd) ← derefNode dd dom
        .ok (dd.setNode id
          { nd with attrs := assocSet nd.attrs kv.1 (jsToString kv.2) })) d
      .ok (d', .handle q)
  | [.arr _] => .error (.unmodeled "attr: for-in over a non-plain object")
  | [.handle _] => .error (.unmodeled "attr: for-in over a non-plain object")
  | [.node _] => .error (.unmodeled "attr: for-in over a non-plain object")
  | _ =>
      let name := args.headD .undefined
      let value := (args.drop 1).headD .undefined
      if args.length = 2 ∧ isArgCheck name then do
        let (id, nd) ← derefNode d dom
        .ok (d.setNode id
          { nd with attrs := assocSet nd.attrs (jsToString name) (jsToString value) },
          .handle q)
      else .ok (d, .undefined)

/-- `Query.prototype.text` (`src/SQuery.js:226`): with at least one argument
assigns `dom.innerText` (stringified) and returns `this`; with none returns
`dom.innerText`.  Both sides access a property of `this[0]`. -/
def Query.text (d : Dom) (q : Query) (args : List JsValue) :
    Except JsErr (Dom × JsValue) :=
  let dom := q.item0
  if args.length ≥ 1 then do
    let (id, nd) ← derefNode d dom
    .ok (d.setNode id { nd with innerText := jsToString (args.headD .undefined) },
      .handle q)
  else do
    let (_, nd) ← derefNode d dom
    .ok (d, .str nd.innerText)

/-- `Query.prototype.html` (`src/SQuery.js:245`): the same shape as `text`,
on `dom.innerHTML`. -/
def Query.html (d : Dom) (q : Query) (args : List JsValue) :
    Except JsErr (Dom × JsValue) :=
  let dom := q.item0
  if args.length ≥ 1 then do
    let (id, nd) ← derefNode d dom
    .ok (d.setNode id { nd with innerHTML := jsToString (args.headD .undefined) },
      .handle q)
  else do
    let (_, nd) ← derefNode d dom
    .ok (d, .str nd.innerHTML)

/-- `Query.prototype.class` (`src/SQuery.js:264`) — the method is named
`class` in the source, a reserved word here.  `taxon == undefined` (loosely,
so also for `null`) reads `dom.className`; a string argument assigns it;
any other argument falls off and returns `undefined`. -/
def Query.classOp (d : Dom) (q : Query) (args : List JsValue) :
    Except JsErr (Dom × JsValue) :=
  let dom := q.item0
  let taxon := args.headD .undefined
  if jsLooseEqUndefined taxon then do
    let (_, nd) ← derefNode d dom
    .ok (d, .str (String.intercalate " " nd.classes))
  else
    match taxon with
    | .str s => do
        let (id, nd) ← derefNode d dom
        .ok (d.setNode id { nd with classes := parseClassName s }, .handle q)
    | _ => .ok (d, .undefined)

/-- The JS values the `domParent` variable of `parent` ranges over. -/
inductive JsRef where
  | undefinedRef
  | null
  | node (id : Nat)
deriving DecidableEq, Repr

/-- `this[0]` as a `JsRef`. -/
def Query.item0Ref (q : Query) : JsRef :=
  match q.items.head? with
  | some i => .node i
  | none => .undefinedRef

/-- The loose comparison `domParent == document`: only a reference to the
document node compares equal (`undefined`/`null` do not). -/
def refIsDocument (d : Dom) : JsRef → Bool
  | .node i => i = d.documentId
  | _ => false

/-- `domParent.parentNode`: a property access, so `undefined`/`null` raise a
TypeError; a node with no parent yields `null`. -/
def parentNodeOf (d : Dom) : JsRef → Except JsErr JsRef
  | .node i =>
      match d.find i with
      | some nd =>
          .ok (match nd.parent with
               | some p => .node p
               | none => .null)
      | none => .error .typeError
  | _ => .error .typeError

/-- Rebuild a `QueryArg` from a `JsRef` for `new Query(ref, null)`. -/
def refToQueryArg : JsRef → QueryArg
  | .node i => .single i
  | .null => .jsNull
  | .undefinedRef => .jsUndef

def queryOfRef (r : JsRef) : Except JsErr Query :=
  Query.construct (refToQueryArg r) none

/-- The raw value the early `return domParent` yields. -/
def refToValue : JsRef → JsValue
  | .node i => .node i
  | .null => .null
  | .undefinedRef => .undefined

/-- The `for (let i = 0; i < selector; i++)` walk of `parent`
(`src/SQuery.js:382`): at each iteration the current value is first compared
against `document` — reaching it returns the RAW document object, not a
Query — and otherwise replaced by its `parentNode`; when the loop ends the
value is wrapped by `new Query(domParent, null)`. -/
def parentWalk (d : Dom) : JsRef → Nat → Except JsErr JsValue
  | cur, 0 => (queryOfRef cur).map .handle
  | cur, k + 1 =>
      if refIsDocument d cur then .ok (refToValue cur)
      else do
        let p ← parentNodeOf d cur
        parentWalk d p k

/-- `Query.prototype.parent` (`src/SQuery.js:370`): a numeric argument
greater than 1 runs the ancestor walk; a string argument searches from the
grandparent with the external `querySelector` collaborator (unmodeled — no
theorem evaluates it); any other argument (including a number `<= 1`,
`undefined`, or `null`, which compares `== undefined`) falls through to
`new Query(dom.parentNode, null)`. -/
def Query.parent (d : Dom) (q : Query) (args : List JsValue) :
    Except JsErr (Dom × JsValue) :=
  let dom := q.item0Ref
  let fallThrough : Except JsErr (Dom × JsValue) := do
    let p ← parentNodeOf d dom
    let q' ← queryOfRef p
    .ok (d, .handle q')
  match args.headD .undefined with
  | .num n =>
      if n > 1 then (parentWalk d dom n.toNat).map (fun v => (d, v))
      else fallThrough
  | .str _ => .error (.unmodeled "parent(selector): external querySelector")
  | _ => fallThrough

/-- A strict ancestor chain in the store: `isAncPath d (c :: path)` asserts
the chain starts at `c`, each step follows the `parentNode` link of a live
node, the document is not touched before the end, and the chain terminates
at the document node. -/
def isAncPath (d : Dom) : List Nat → Bool
  | [] => false
  | [c] => decide (c = d.documentId)
  | c :: c' :: rest =>
      !(decide (c = d.documentId)) &&
      (match d.find c with
       | some nd => decide (nd.parent = some c')
       | none => false) &&
      isAncPath d (c' :: rest)

/-- One `dom.children[0].remove()` step of the no-argument `removeChild`
loop: drop the first child from the element's live child list and detach
that child; `undefined.remove()` on an exhausted list raises a TypeError. -/
def removeFirstChild (d : Dom) (id : Nat) : Except JsErr Dom :=
  match d.find id with
  | none => .error .typeError
  | some nd =>
      match nd.children with
      | [] => .error .typeError
      | c :: rest =>
          let d1 := d.setNode id { nd with children := rest }
          .ok (match d1.find c with
               | some cn => d1.setNode c { cn with parent := none }
               | none => d1)

/-- The `for (let i = 0; i < childLength; i++)` loop of `removeChild()`
(`src/SQuery.js:591`): the child count is read once and the first child is
removed that many times. -/
def removeAllChildren (d : Dom) (id : Nat) : Nat → Except JsErr Dom
  | 0 => .ok d
  | k + 1 => do
      let d' ← removeFirstChild d id
      removeAllChildren d' id k

/-- `Query.prototype.removeChild` (`src/SQuery.js:567`).  The numeric branch
evaluates `dom.removeChild[index]` — an INDEXING of the `removeChild`
function object, not a call — so it mutates nothing and returns
`new Query(dom, null)`.  The string branch removes every descendant matched
by the external `querySelectorAll` collaborator (unmodeled — no theorem
evaluates it).  `index == undefined` (loosely, so also `null`) removes all
direct children; anything else throws. -/
def Query.removeChild (d : Dom) (q : Query) (args : List JsValue) :
    Except JsErr (Dom × JsValue) :=
  let dom := q.item0
  let index := args.headD .undefined
  match index with
  | .num _ => do
      let (id, _) ← derefNode d dom
      .ok (d, .handle { items := [id], selector := none })
  | .str _ => .error (.unmodeled "removeChild(selector): external querySelectorAll")
  | _ =>
      if jsLooseEqUndefined index then do
        let (id, nd) ← derefNode d dom
        let d' ← removeAllChildren d id nd.children.length
        .ok (d', .handle { items := [id], selector := none })
      else .error (.thrown "只接受数字以及字符串！")

/-- The own properties of the `Query.prototype` object literal
(`src/SQuery.js:60`), in source order: the shared method table consulted by
`$.forQuery` via `Querys.__proto__.hasOwnProperty(func)`. -/
def queryProtoMethods : List String :=
  ["each", "isEvent", "on", "bind", "css", "attr", "text", "html", "class",
   "addClass", "delClass", "toggle", "parent", "parentAll", "children",
   "addFirstChild", "addLastChild", "insertChild", "removeChild",
   "firstChild", "lastChild", "child", "first", "last", "eq", "prevNode",
   "prevNodeAll", "nextNode", "nextNodeAll", "insertElementBefore",
   "insertElementAfter", "dom"]

/-- The `case` labels of the `switch (func)` inside `$.forQuery`
(`src/SQuery.js:946`), in source order.  `each`, `isEvent`, `child` and
`dom` are prototype methods WITHOUT a case, so they land on the `default:
throw` branch. -/
def forQueryCases : List String :=
  ["on", "bind", "css", "attr", "text", "html", "class", "addClass",
   "delClass", "toggle", "addFirstChild", "addLastChild", "insertChild",
   "removeChild", "parent", "parentAll", "children", "firstChild",
   "lastChild", "first", "last", "eq", "prevNode", "prevNodeAll",
   "nextNode", "nextNodeAll", "insertElementBefore", "insertElementAfter"]

/-- The per-element method invocation of a `$.forQuery` case.  Every case
body is the identical loop `dom.push(new Query(Querys[i], null).<func>(...arg))`
— the cases differ only in the invoked prototype method, so they factor
through this name dispatch.  The methods whose bodies consult external
collaborators (event binding, node creation/insertion, sibling traversal)
are not exercised by any claim and yield `unmodeled`. -/
def applyOp (func : String) (d : Dom) (q : Query) (args : List JsValue) :
    Except JsErr (Dom × JsValue) :=
  match func with
  | "css" => Query.css d q args
  | "attr" => Query.attr d q args
  | "text" => Query.text d q args
  | "html" => Query.html d q args
  | "class" => Query.classOp d q args
  | "addClass" => Query.addClass d q args
  | "delClass" => Query.delClass d q args
  | "parent" => Query.parent d q args
  | "removeChild" => Query.removeChild d q args
  | other => .error (.unmodeled other)

/-- The per-case loop of `$.forQuery`: for each element of the collection in
order, wrap it as `new Query(Querys[i], null)` (always a one-item query) and
invoke the named method with the forwarded arguments, collecting results. -/
def runBatch (d : Dom) (items : List Nat) (func : String) (args : List JsValue) :
    Except JsErr (Dom × List JsValue) :=
  match items with
  | [] => .ok (d, [])
  | i :: rest => do
      let q ← Query.construct (.single i) none
      let (d1, r) ← applyOp func d q args
      let (d2, rs) ← runBatch d1 rest func args
      .ok (d2, r :: rs)

/-- The value `$.forQuery` ultimately returns. -/
inductive ForQueryRet where
  | results (rs : List JsValue)
  | errorString (msg : String)

/-- JS `==` between two object references compares identity.  In `forQuery`
the `dom` array is allocated at function entry and the `[]` in the return
expression is a fresh literal, so the two references are distinct — modelled
as allocation ids 0 and 1. -/
def jsArrayRefEq (a b : Nat) : Bool := a = b

/-- The final `return dom == [] ? "Error：出现意外错误!" : dom` of
`$.forQuery` (`src/SQuery.js:1204`). -/
def forQueryReturn (rs : List JsValue) : ForQueryRet :=
  if jsArrayRefEq 0 1 then .errorString "Error：出现意外错误!" else .results rs

/-- `$.forQuery(Querys, func, ...arg)` (`src/SQuery.js:939`).  The collection
is a `Query` object (per the function's own doc comment), so
`Querys.__proto__` is `Query.prototype` and `hasOwnProperty(func)` consults
the shared method table ONCE, before any iteration.  An unknown name skips
the whole `if` block and reaches the final return with `dom` still empty;
a known name with no `case` hits `default: throw`. -/
def forQuery (d : Dom) (querys : Query) (func : String) (args : List JsValue) :
    Except JsErr (Dom × ForQueryRet) :=
  if func ∈ queryProtoMethods then
    if func ∈ forQueryCases then do
      let (d', rs) ← runBatch d querys.items func args
      .ok (d', forQueryReturn rs)
    else .error (.thrown "方法不存在！")
  else .ok (d, forQueryReturn [])

/-- A small concrete document used by the witnesses: node 0 is the document,
node 5 the root element, nodes 1–3 its children (node 2 starts with classes
`p q`, node 3 has the two children 6 and 7). -/
def demoDom : Dom :=
  ⟨0, [(0, { children := [5] }),
       (5, { parent := some 0, children := [1, 2, 3] }),
       (1, { parent := some 5 }),
       (2, { parent := some 5, classes := ["p", "q"] }),
       (3, { parent := some 5, children := [6, 7] }),
       (6, { parent := some 3 }),
       (7, { parent := some 3 })]⟩

/-! ## Store lemmas -/

theorem lookupNode_setEntry_self (l : List (Nat × Node)) (i : Nat) (n : Node)
    (h : (lookupNode l i).isSome = true) :
    lookupNode (l.map fun p => if p.1 = i then (i, n) else p) i = some n := by
  induction l with
  | nil => simp [lookupNode] at h
  | cons p t ih =>
      by_cases hp : p.1 = i
      · simp [lookupNode, hp]
      · simp only [List.map_cons, if_neg hp, lookupNode]
        simp only [lookupNode, if_neg hp] at h
        exact ih h

theorem lookupNode_setEntry_ne (l : List (Nat × Node)) (i j : Nat) (n : Node)
    (hij : j ≠ i) :
    lookupNode (l.map fun p => if p.1 = i then (i, n) else p) j = lookupNode l j := by
  induction l with
  | nil => simp [lookupNode]
  | cons p t ih =>
      by_cases hp : p.1 = i
      · have hji : i ≠ j := fun h => hij h.symm
        have hpj : p.1 ≠ j := by rw [hp]; exact hji
        simp only [List.map_cons, if_pos hp, lookupNode, if_neg hji, if_neg hpj]
        exact ih
      · simp only [List.map_cons, if_neg hp, lookupNode]
        by_cases hpj : p.1 = j
        · simp [hpj]
        · simp only [if_neg hpj]
          exact ih

theorem lookupNode_setEntry_isSome (l : List (Nat × Node)) (i j : Nat) (n : Node) :
    (lookupNode (l.map fun p => if p.1 = i then (i, n) else p) j).isSome =
      (lookupNode l j).isSome := by
  induction l with
  | nil => simp [lookupNode]
  | cons p t ih =>
      by_cases hp : p.1 = i
      · simp only [List.map_cons, if_pos hp, lookupNode]
        by_cases hij : i = j
        · have : p.1 = j := by rw [hp, hij]
          simp [hij, this]
        · have hpj : ¬ p.1 = j := by rw [hp]; exact hij
          simp only [if_neg hij, if_neg hpj]
          exact ih
      · simp only [List.map_cons, if_neg hp, lookupNode]
        by_cases hpj : p.1 = j
        · simp [hpj]
        · simp only [if_neg hpj]
          exact ih

theorem find_setNode_self (d : Dom) (i : Nat) (n : Node)
    (h : (d.find i).isSome = true) : (d.setNode i n).find i = some n :=
  lookupNode_setEntry_self d.nodes i n h

theorem find_setNode_ne (d : Dom) (i j : Nat) (n : Node) (hij : j ≠ i) :
    (d.setNode i n).find j = d.find j :=
  lookupNode_setEntry_ne d.nodes i j n hij

theorem find_setNode_isSome (d : Dom) (i j : Nat) (n : Node) :
    ((d.setNode i n).find j).isSome = (d.find j).isSome :=
  lookupNode_setEntry_isSome d.nodes i j n

theorem getClasses_setNode_self (d : Dom) (i : Nat) (n : Node)
    (h : (d.find i).isSome = true) : getClasses (d.setNode i n) i = n.classes := by
  simp [getClasses, find_setNode_self d i n h]

theorem getClasses_setNode_ne (d : Dom) (i j : Nat) (n : Node) (hij : j ≠ i) :
    getClasses (d.setNode i n) j = getClasses d j := by
  simp [getClasses, find_setNode_ne d i j n hij]

/-- Every `case` label of the `forQuery` switch is an own property of the
prototype method table. -/
theorem forQueryCases_subset : ∀ f ∈ forQueryCases, f ∈ queryProtoMethods := by
  decide

/-- `dom == []` in the final return of `forQuery` compares two distinct
array references, so the error-string value is never selected. -/
theorem forQueryReturn_eq_results (rs : List JsValue) :
    forQueryReturn rs = .results rs := rfl

/-! ## C1 -/

/-- C1 (counterexample): dispatching the unrecognized operation name
`doesNotExist` over a one-element collection does NOT fail with an
unknown-operation error — `forQuery` skips the whole dispatch block and
returns the still-empty result array, leaving the document untouched. -/
theorem forQuery_unknown_name_cex :
    forQuery demoDom ⟨[1], none⟩ "doesNotExist" [] =
      .ok (demoDom, .results []) := rfl

/-- C1 (amended): if the operation name is not an own property of the shared
method table, `forQuery` silently returns the empty result list with the
document unchanged; the unknown-operation throw `方法不存在！` fires only for
a name that IS on the method table but has no dispatch case, and it fires
before any iteration, so no element is mutated in either situation. -/
theorem forQuery_unknown_name_skips (d : Dom) (q : Query) (func : String)
    (args : List JsValue) :
    (func ∉ queryProtoMethods → forQuery d q func args = .ok (d, .results [])) ∧
    (func ∈ queryProtoMethods → func ∉ forQueryCases →
      forQuery d q func args = .error (.thrown "方法不存在！")) := by
  refine ⟨fun h => ?_, fun h1 h2 => ?_⟩
  · simp only [forQuery, if_neg h]
    rfl
  · simp only [forQuery, if_pos h1, if_neg h2]

/-- C1 witness: both amended behaviors at concrete inputs — `doesNotExist`
is silently skipped, while `child` (a real prototype method without a
dispatch case) hits the unknown-operation throw. -/
theorem forQuery_unknown_name_skips_witness :
    forQuery demoDom ⟨[1], none⟩ "doesNotExist" [.str "x"] =
        .ok (demoDom, .results []) ∧
    forQuery demoDom ⟨[1], none⟩ "child" [.num 0] =
        .error (.thrown "方法不存在！") :=
  ⟨(forQuery_unknown_name_skips demoDom ⟨[1], none⟩ "doesNotExist" [.str "x"]).1
      (by decide),
   (forQuery_unknown_name_skips demoDom ⟨[1], none⟩ "child" [.num 0]).2
      (by decide) (by decide)⟩

/-! ## C2 -/

/-- `classList.add` on the concrete valid token `x`. -/
theorem classListAdd_x (cs : List String) :
    classListAdd cs "x" = .ok (if cs.contains "x" then cs else cs ++ ["x"]) := by
  have h2 : hasHtmlWhitespace "x" = false := by decide
  simp [classListAdd, h2]

/-- The per-element `addClass("x")` step performed by the batch loop. -/
theorem addClass_single_x (d : Dom) (e : Nat) (nd : Node) (hnd : d.find e = some nd) :
    Query.addClass d ⟨[e], none⟩ [.str "x"] =
      .ok (d.setNode e
            { nd with classes :=
                if nd.classes.contains "x" then nd.classes else nd.classes ++ ["x"] },
           .handle ⟨[e], none⟩) := by
  simp [Query.addClass, Query.item0, derefNode, hnd, classListAdd_x, Bind.bind,
    Except.bind]

/-- One `addClass("x")` step never removes the token `x` from any node. -/
theorem hasClass_mono_addx (d : Dom) (e : Nat) (nd : Node) (hnd : d.find e = some nd)
    (j : Nat) (hj : hasClass d j "x" = true) :
    hasClass (d.setNode e
      { nd with classes :=
          if nd.classes.contains "x" then nd.classes else nd.classes ++ ["x"] })
      j "x" = true := by
  by_cases hje : j = e
  · subst hje
    have hs : (d.find j).isSome = true := by rw [hnd]; rfl
    rw [hasClass, getClasses_setNode_self d j _ hs]
    have hcl : getClasses d j = nd.classes := by simp [getClasses, hnd]
    rw [hasClass, hcl] at hj
    show (if nd.classes.contains "x" then nd.classes
          else nd.classes ++ ["x"]).contains "x" = true
    rw [if_pos hj]
    exact hj
  · rw [hasClass, getClasses_setNode_ne d e j _ hje]
    exact hj

/-- One `addClass("x")` step gives its own element the token `x`. -/
theorem hasClass_self_addx (d : Dom) (e : Nat) (nd : Node) (hnd : d.find e = some nd) :
    hasClass (d.setNode e
      { nd with classes :=
          if nd.classes.contains "x" then nd.classes else nd.classes ++ ["x"] })
      e "x" = true := by
  have hs : (d.find e).isSome = true := by rw [hnd]; rfl
  rw [hasClass, getClasses_setNode_self d e _ hs]
  show (if nd.classes.contains "x" then nd.classes
        else nd.classes ++ ["x"]).contains "x" = true
  cases hc : nd.classes.contains "x" with
  | true =>
      rw [if_pos rfl]
      exact hc
  | false =>
      rw [if_neg (by simp)]
      simp

/-- The induction behind C2: the batch loop over any element list, with
`addClass` and forwarded argument `"x"`, succeeds, returns exactly one
single-element handle per input element in input order, and leaves every
processed element carrying class `x`. -/
theorem runBatch_addClass_x (elems : List Nat) : ∀ (d : Dom),
    (elems.all fun e => (d.find e).isSome) = true →
    ∃ d', runBatch d elems "addClass" [.str "x"] =
            .ok (d', elems.map fun e => JsValue.handle ⟨[e], none⟩) ∧
          (∀ j, (d.find j).isSome = true → (d'.find j).isSome = true) ∧
          (∀ j, hasClass d j "x" = true → hasClass d' j "x" = true) ∧
          (∀ e, e ∈ elems → hasClass d' e "x" = true) := by
  induction elems with
  | nil =>
      intro d _
      exact ⟨d, rfl, fun _ h => h, fun _ h => h, fun e he => absurd he (by simp)⟩
  | cons e rest ih =>
      intro d hall
      rw [List.all_cons, Bool.and_eq_true] at hall
      obtain ⟨he, hrest⟩ := hall
      obtain ⟨nd, hnd⟩ := Option.isSome_iff_exists.mp he
      have hstep := addClass_single_x d e nd hnd
      have hsome1 : ∀ j, (d.find j).isSome = true →
          ((d.setNode e
            { nd with classes :=
                if nd.classes.contains "x" then nd.classes
                else nd.classes ++ ["x"] }).find j).isSome = true := by
        intro j hj
        rw [find_setNode_isSome]
        exact hj
      have hrest1 : (rest.all fun x =>
          ((d.setNode e
            { nd with classes :=
                if nd.classes.contains "x" then nd.classes
                else nd.classes ++ ["x"] }).find x).isSome) = true := by
        rw [List.all_eq_true] at hrest ⊢
        exact fun x hx => hsome1 x (hrest x hx)
      obtain ⟨d', hrun, hsome2, hmono2, hall2⟩ := ih _ hrest1
      refine ⟨d', ?_, fun j hj => hsome2 j (hsome1 j hj),
        fun j hj => hmono2 j (hasClass_mono_addx d e nd hnd j hj), ?_⟩
      · rw [runBatch]
        simp only [Query.construct, applyOp, Bind.bind, Except.bind, hstep, hrun,
          List.map_cons]
      · intro x hx
        rcases List.mem_cons.mp hx with h | h
        · subst h
          exact hmono2 x (hasClass_self_addx d x nd hnd)
        · exact hall2 x h

/-- C2: dispatching `addClass` with forwarded argument `"x"` over any
collection of live elements processes them in input order, wrapping each
into a single-element handle and invoking `addClass("x")` on it, returns the
ordered list of the n per-element results (one handle per input element, in
input order — so for three elements a list of length 3), and leaves every
element of the collection carrying class `x`. -/
theorem forQuery_addClass_batch (d : Dom) (sel : Option String) (elems : List Nat)
    (hvalid : (elems.all fun e => (d.find e).isSome) = true) :
    ∃ d', forQuery d ⟨elems, sel⟩ "addClass" [.str "x"] =
            .ok (d', .results (elems.map fun e => JsValue.handle ⟨[e], none⟩)) ∧
          (∀ e, e ∈ elems → hasClass d' e "x" = true) := by
  obtain ⟨d', hrun, _, _, hall⟩ := runBatch_addClass_x elems d hvalid
  refine ⟨d', ?_, hall⟩
  unfold forQuery
  rw [if_pos (by decide), if_pos (by decide)]
  simp only [hrun, Bind.bind, Except.bind, forQueryReturn_eq_results]

/-- C2 witness: the batch `addClass("x")` over the three demo elements
1, 2, 3 returns three handles in input order and ends with class `x` on all
three elements. -/
theorem forQuery_addClass_batch_witness :
    ([1, 2, 3].all fun e => (demoDom.find e).isSome) = true ∧
    ∃ d', forQuery demoDom ⟨[1, 2, 3], some ".item"⟩ "addClass" [.str "x"] =
            .ok (d', .results ([1, 2, 3].map fun e => JsValue.handle ⟨[e], none⟩)) ∧
          (∀ e, e ∈ [1, 2, 3] → hasClass d' e "x" = true) :=
  ⟨rfl, forQuery_addClass_batch demoDom (some ".item") [1, 2, 3] rfl⟩

/-! ## C3 -/

/-- C3 (counterexample): a zero-argument `css()` read on an empty handle
does not fail with a defined error — it silently returns `undefined`. -/
theorem empty_handle_css_read_cex :
    Query.css demoDom ⟨[], some ".nomatch"⟩ [] = .ok (demoDom, .undefined) := rfl

/-- C3 (amended): on a handle with `length == 0`, the zero-argument reads
`css()` and `attr()` silently return `undefined` (their read branches
require a string argument, so nothing is ever dereferenced), while `text()`,
`html()` and `class()` raise a native type error by accessing a property of
the missing `items[0]`; no defined `EmptyHandleError` exists in the code. -/
theorem empty_handle_zero_arg_reads (d : Dom) (q : Query) (h : q.items = []) :
    Query.css d q [] = .ok (d, .undefined) ∧
    Query.attr d q [] = .ok (d, .undefined) ∧
    Query.text d q [] = .error .typeError ∧
    Query.html d q [] = .error .typeError ∧
    Query.classOp d q [] = .error .typeError := by
  have h0 : q.item0 = none := by simp [Query.item0, h]
  refine ⟨?_, ?_, ?_, ?_, ?_⟩ <;>
    simp [Query.css, Query.attr, Query.text, Query.html, Query.classOp, h0,
      derefNode, jsLooseEqUndefined, isArgCheck, Bind.bind, Except.bind]

/-- C3 witness: the amended behavior at a concrete empty handle. -/
theorem empty_handle_zero_arg_reads_witness :
    Query.css demoDom ⟨[], some ".q"⟩ [] = .ok (demoDom, .undefined) ∧
    Query.attr demoDom ⟨[], some ".q"⟩ [] = .ok (demoDom, .undefined) ∧
    Query.text demoDom ⟨[], some ".q"⟩ [] = .error .typeError ∧
    Query.html demoDom ⟨[], some ".q"⟩ [] = .error .typeError ∧
    Query.classOp demoDom ⟨[], some ".q"⟩ [] = .error .typeError :=
  empty_handle_zero_arg_reads demoDom ⟨[], some ".q"⟩ rfl

/-! ## C4 -/

/-- C4: the numeric branch of `removeChild` evaluates `dom.removeChild[index]`
— an indexing of the `removeChild` function object, never a call — so
`removeChild(0)` on an element with children `[6, 7]` removes nothing: the
store is returned unchanged and both children remain in place, contradicting
the claimed (and commented) behavior of removing the child at the index. -/
theorem removeChild_numeric_index_noop :
    Query.removeChild demoDom ⟨[3], none⟩ [.num 0] =
        .ok (demoDom, .handle ⟨[3], none⟩) ∧
    (demoDom.find 3).map Node.children = some [6, 7] :=
  ⟨rfl, rfl⟩

/-! ## C5 -/

/-- C5: the "validation" of the two-scalar write form of `css`/`attr` is the
expression `name == "string" || "number" ? true : false`, which is `true`
for EVERY first argument (the `||` short-circuits to the truthy string
`"number"`), and it never inspects the second argument at all — so a
two-argument write with a boolean second argument COMMITS: `attr` stores the
stringified value `"true"`, and `css` does the same for the style. -/
theorem two_arg_write_commits_any_type :
    (∀ name : JsValue, isArgCheck name = true) ∧
    (∃ d', Query.attr demoDom ⟨[1], none⟩ [.str "data-x", .bool true] =
              .ok (d', .handle ⟨[1], none⟩) ∧
           (d'.find 1).map Node.attrs = some [("data-x", "true")]) ∧
    (∃ d', Query.css demoDom ⟨[1], none⟩ [.str "color", .bool true] =
              .ok (d', .handle ⟨[1], none⟩) ∧
           (d'.find 1).map Node.styles = some [("color", "true")]) := by
  refine ⟨?_, ⟨_, rfl, rfl⟩, ⟨_, rfl, rfl⟩⟩
  intro name
  unfold isArgCheck
  cases h : jsLooseEqStrLit name "string" <;> simp [jsTruthy]

/-! ## C6 -/

/-- The ancestor walk of `parent(n)` along a strict ancestor chain: while
the step budget stays within the chain the walk performs exactly that many
`parentNode` steps and wraps the landing entry in a fresh one-item query;
once the budget exceeds the chain length the loop meets the document first
and returns the RAW document object. -/
theorem parentWalk_on_path (d : Dom) :
    ∀ (path : List Nat) (c : Nat), isAncPath d (c :: path) = true →
    ∀ k : Nat,
    (k ≤ path.length →
      parentWalk d (.node c) k = .ok (.handle ⟨[(c :: path).getD k 0], none⟩)) ∧
    (path.length < k → parentWalk d (.node c) k = .ok (.node d.documentId)) := by
  intro path
  induction path with
  | nil =>
      intro c hp k
      have hc : c = d.documentId := by simpa [isAncPath] using hp
      constructor
      · intro hk
        have hk0 : k = 0 := Nat.le_zero.mp hk
        subst hk0
        rfl
      · intro hk
        obtain ⟨k', rfl⟩ : ∃ k', k = k' + 1 := ⟨k - 1, by omega⟩
        rw [parentWalk, if_pos (by simp [refIsDocument, hc]), hc]
        rfl
  | cons c' rest ih =>
      intro c hp k
      rw [isAncPath] at hp
      simp only [Bool.and_eq_true, Bool.not_eq_true', decide_eq_false_iff_not] at hp
      obtain ⟨⟨hc, hpar⟩, hrest⟩ := hp
      obtain ⟨nd, hnd, hparent⟩ : ∃ nd, d.find c = some nd ∧ nd.parent = some c' := by
        cases hfind : d.find c with
        | none =>
            rw [hfind] at hpar
            exact absurd hpar (by simp)
        | some nd =>
            rw [hfind] at hpar
            exact ⟨nd, rfl, of_decide_eq_true hpar⟩
      have hstep : parentNodeOf d (.node c) = .ok (.node c') := by
        simp [parentNodeOf, hnd, hparent]
      constructor
      · intro hk
        cases k with
        | zero => rfl
        | succ k' =>
            rw [parentWalk, if_neg (by simp [refIsDocument, hc])]
            simp only [hstep, Bind.bind, Except.bind]
            have h1 := (ih c' hrest k').1
              (by simp only [List.length_cons] at hk; omega)
            rw [h1]
            simp [List.getD_cons_succ]
      · intro hk
        cases k with
        | zero => exact absurd hk (Nat.not_lt_zero _)
        | succ k' =>
            rw [parentWalk, if_neg (by simp [refIsDocument, hc])]
            simp only [hstep, Bind.bind, Except.bind]
            exact (ih c' hrest k').2
              (by simp only [List.length_cons] at hk; omega)

/-- C6: `parent(n)` with integer `n > 1` walks up exactly `n` ancestor
links from `items[0]`: while `n` stays within the ancestor chain the walk
ends on the `n`-th ancestor, wrapped as a new one-item handle; when `n`
exceeds the ancestor depth the loop meets the document root early and
returns that root ancestor without raising — silent truncation, not an
error. -/
theorem parent_n_silent_truncation (d : Dom) (q : Query) (id : Nat)
    (path : List Nat) (n : Int)
    (hitem : q.items.head? = some id)
    (hpath : isAncPath d (id :: path) = true)
    (hn : 1 < n) :
    (n.toNat ≤ path.length →
      Query.parent d q [.num n] =
        .ok (d, .handle ⟨[(id :: path).getD n.toNat 0], none⟩)) ∧
    (path.length < n.toNat →
      Query.parent d q [.num n] = .ok (d, .node d.documentId)) := by
  have href : q.item0Ref = .node id := by simp [Query.item0Ref, hitem]
  have hw := parentWalk_on_path d path id hpath n.toNat
  constructor
  · intro hk
    have h1 := hw.1 hk
    unfold Query.parent
    simp only [List.headD_cons, href, if_pos hn, h1, Except.map]
  · intro hk
    have h2 := hw.2 hk
    unfold Query.parent
    simp only [List.headD_cons, href, if_pos hn, h2, Except.map]

/-- C6 witness: in the demo document node 1 sits at ancestor depth 2
(1 → 5 → 0), so `parent(5)` exceeds the depth and returns the raw document
root without raising. -/
theorem parent_n_silent_truncation_witness :
    isAncPath demoDom [1, 5, 0] = true ∧ ((1 : Int) < 5) ∧
    Query.parent demoDom ⟨[1], none⟩ [.num 5] = .ok (demoDom, .node 0) :=
  ⟨by decide, by decide,
   (parent_n_silent_truncation demoDom ⟨[1], none⟩ 1 [5, 0] 5 rfl (by decide)
      (by decide)).2 (by decide)⟩

/-! ## C7 -/

/-- One `classList.add` step of the `arg.map` loop of `addClass`, on a live
node and a valid token. -/
theorem addClassLeaf_eq (d : Dom) (id : Nat) (nd : Node) (t : String)
    (hnd : d.find id = some nd) (h1 : ¬(t = "")) (h2 : hasHtmlWhitespace t = false) :
    addClassLeaf d (some id) t =
      .ok (d.setNode id
        { nd with classes :=
            if nd.classes.contains t then nd.classes else nd.classes ++ [t] }) := by
  simp [addClassLeaf, derefNode, hnd, classListAdd, h1, h2, Bind.bind, Except.bind]

/-- The single-string branch of `delClass`, on a live node and a valid
token: every occurrence of the token is removed. -/
theorem delClass_single_eq (d : Dom) (q : Query) (id : Nat) (nd : Node) (t : String)
    (hitem : q.item0 = some id) (hnd : d.find id = some nd)
    (h1 : ¬(t = "")) (h2 : hasHtmlWhitespace t = false) :
    Query.delClass d q [.str t] =
      .ok (d.setNode id { nd with classes := nd.classes.filter (fun c => c ≠ t) },
           .handle q) := by
  simp [Query.delClass, hitem, derefNode, hnd, classListRemove, h1, h2, Bind.bind,
    Except.bind]

/-- C7: starting from an element with no classes, `addClass("a","b")`
followed by `delClass("a")` leaves the class set exactly `{"b"}`, and the
same holds with the arguments added in the opposite order
(`addClass("b","a")`) and for the nested-array form (`addClass(["a","b"])`)
— every leaf string is applied as an independent addition, and the final
set does not depend on the insertion order. -/
theorem addClass_delClass_set_semantics (d : Dom) (q : Query) (id : Nat)
    (nd : Node) (hitem : q.item0 = some id) (hnd : d.find id = some nd)
    (hcls : nd.classes = []) :
    (∃ d1 d2, Query.addClass d q [.str "a", .str "b"] = .ok (d1, .handle q) ∧
              Query.delClass d1 q [.str "a"] = .ok (d2, .handle q) ∧
              getClasses d2 id = ["b"]) ∧
    (∃ d1 d2, Query.addClass d q [.str "b", .str "a"] = .ok (d1, .handle q) ∧
              Query.delClass d1 q [.str "a"] = .ok (d2, .handle q) ∧
              getClasses d2 id = ["b"]) ∧
    (∃ d1 d2, Query.addClass d q [.arr [.str "a", .str "b"]] = .ok (d1, .handle q) ∧
              Query.delClass d1 q [.str "a"] = .ok (d2, .handle q) ∧
              getClasses d2 id = ["b"]) := by
  have hsome : (d.find id).isSome = true := by rw [hnd]; rfl
  -- first add of a token `s` on the initially class-free node
  have hstep1 : ∀ s : String, ¬(s = "") → hasHtmlWhitespace s = false →
      addClassLeaf d (some id) s = .ok (d.setNode id { nd with classes := [s] }) := by
    intro s h1 h2
    rw [addClassLeaf_eq d id nd s hnd h1 h2, hcls]
    rfl
  -- second add of a distinct token `t` after the first one
  have hstep2 : ∀ s t : String, ¬(t = "") → hasHtmlWhitespace t = false →
      ¬(t = s) →
      addClassLeaf (d.setNode id { nd with classes := [s] }) (some id) t =
        .ok ((d.setNode id { nd with classes := [s] }).setNode id
              { nd with classes := [s, t] }) := by
    intro s t h1 h2 hts
    rw [addClassLeaf_eq _ id { nd with classes := [s] } t
        (find_setNode_self d id _ hsome) h1 h2]
    simp [List.contains_cons, hts]
  -- the two-step store and its lookup
  have hfind2 : ∀ s t : String,
      ((d.setNode id { nd with classes := [s] }).setNode id
          { nd with classes := [s, t] }).find id = some { nd with classes := [s, t] } :=
    fun s t => find_setNode_self _ id _ (by rw [find_setNode_self d id _ hsome]; rfl)
  have hsome2 : ∀ s t : String,
      (((d.setNode id { nd with classes := [s] }).setNode id
          { nd with classes := [s, t] }).find id).isSome = true := by
    intro s t
    rw [hfind2 s t]
    rfl
  refine ⟨?_, ?_, ?_⟩
  · refine ⟨_, _, ?_, delClass_single_eq _ q id { nd with classes := ["a", "b"] } "a"
        hitem (hfind2 "a" "b") (by decide) (by decide), ?_⟩
    · simp only [Query.addClass, hitem, List.foldlM, addClassArg, Bind.bind,
        Except.bind, hstep1 "a" (by decide) (by decide),
        hstep2 "a" "b" (by decide) (by decide) (by decide)]
      rfl
    · rw [getClasses_setNode_self _ id _ (hsome2 "a" "b")]
      rfl
  · refine ⟨_, _, ?_, delClass_single_eq _ q id { nd with classes := ["b", "a"] } "a"
        hitem (hfind2 "b" "a") (by decide) (by decide), ?_⟩
    · simp only [Query.addClass, hitem, List.foldlM, addClassArg, Bind.bind,
        Except.bind, hstep1 "b" (by decide) (by decide),
        hstep2 "b" "a" (by decide) (by decide) (by decide)]
      rfl
    · rw [getClasses_setNode_self _ id _ (hsome2 "b" "a")]
      rfl
  · refine ⟨_, _, ?_, delClass_single_eq _ q id { nd with classes := ["a", "b"] } "a"
        hitem (hfind2 "a" "b") (by decide) (by decide), ?_⟩
    · simp only [Query.addClass, hitem, List.foldlM, addClassArg, jsToString,
        Bind.bind, Except.bind, hstep1 "a" (by decide) (by decide),
        hstep2 "a" "b" (by decide) (by decide) (by decide)]
      rfl
    · rw [getClasses_setNode_self _ id _ (hsome2 "a" "b")]
      rfl

/-- C7 witness: the set semantics at demo node 1, which starts with no
classes. -/
theorem addClass_delClass_set_semantics_witness :
    (∃ d1 d2, Query.addClass demoDom ⟨[1], none⟩ [.str "a", .str "b"] =
                .ok (d1, .handle ⟨[1], none⟩) ∧
              Query.delClass d1 ⟨[1], none⟩ [.str "a"] = .ok (d2, .handle ⟨[1], none⟩) ∧
              getClasses d2 1 = ["b"]) ∧
    (∃ d1 d2, Query.addClass demoDom ⟨[1], none⟩ [.str "b", .str "a"] =
                .ok (d1, .handle ⟨[1], none⟩) ∧
              Query.delClass d1 ⟨[1], none⟩ [.str "a"] = .ok (d2, .handle ⟨[1], none⟩) ∧
              getClasses d2 1 = ["b"]) ∧
    (∃ d1 d2, Query.addClass demoDom ⟨[1], none⟩ [.arr [.str "a", .str "b"]] =
                .ok (d1, .handle ⟨[1], none⟩) ∧
              Query.delClass d1 ⟨[1], none⟩ [.str "a"] = .ok (d2, .handle ⟨[1], none⟩) ∧
              getClasses d2 1 = ["b"]) :=
  addClass_delClass_set_semantics demoDom ⟨[1], none⟩ 1 { parent := some 5 } rfl rfl rfl

/-! ## C8 -/

/-- C8 (counterexample): a collection-like input of length 0 does NOT become
a zero-length handle — it fails both object branches (`length == undefined`
is false, `length >= 1` is false), falls through to the not-a-string guard,
and the entry point throws its invalid-input error. -/
theorem dollar_zero_length_collection_cex :
    dollar (fun _ => []) (.collection []) = .error (.thrown invalidInputMsg) := rfl

/-- C8 (amended): for every node-collection-like input with length ≥ 1 the
entry point produces a handle whose items are the positional entries of the
collection, copied in order and reference-identical, whose length equals the
collection's length, and whose selector is the empty string; a length-0
collection is instead rejected with the invalid-input throw. -/
theorem dollar_collection_normalization (qsa : String → List Nat)
    (ids : List Nat) (h : 1 ≤ ids.length) :
    dollar qsa (.collection ids) = .ok { items := ids, selector := some "" } ∧
    (Query.mk ids (some "")).length = ids.length := by
  refine ⟨?_, rfl⟩
  simp [dollar, h, Query.construct]

/-- C8 witness: the amended normalization at a concrete two-node
collection. -/
theorem dollar_collection_normalization_witness :
    dollar (fun _ => []) (.collection [5, 6]) =
        .ok { items := [5, 6], selector := some "" } ∧
    (Query.mk [5, 6] (some "")).length = [5, 6].length :=
  dollar_collection_normalization (fun _ => []) [5, 6] (by decide)

/-! ## C9 -/

/-- C9: on a non-empty handle, `delClass()` with no arguments assigns
`dom.className = ""`, leaving `items[0]` with no class tokens at all, and
returns the very same handle value. -/
theorem delClass_no_args_clears (d : Dom) (q : Query) (id : Nat) (nd : Node)
    (hitem : q.item0 = some id) (hnd : d.find id = some nd) :
    ∃ d', Query.delClass d q [] = .ok (d', .handle q) ∧ getClasses d' id = [] := by
  refine ⟨d.setNode id { nd with classes := parseClassName "" }, ?_, ?_⟩
  · simp [Query.delClass, hitem, derefNode, hnd, Bind.bind, Except.bind]
  · rw [getClasses_setNode_self d id _ (by rw [hnd]; rfl)]
    show parseClassName "" = []
    decide

/-- C9 witness: clearing the classes of demo node 2 (initially `p q`). -/
theorem delClass_no_args_clears_witness :
    ∃ d', Query.delClass demoDom ⟨[2], none⟩ [] = .ok (d', .handle ⟨[2], none⟩) ∧
          getClasses d' 2 = [] :=
  delClass_no_args_clears demoDom ⟨[2], none⟩ 2
    { parent := some 5, classes := ["p", "q"] } rfl rfl

/-! ## C10 -/

/-- C10: for every collection and every operation name, `forQuery` never
returns the error-string fallback — the `dom == []` comparison of the result
array against a fresh empty array literal is reference equality between two
distinct objects and is always false; in particular, every name that is a
case of the dispatch table applied to an empty collection returns the empty
result array (not the error string). -/
theorem forQuery_fallback_unreachable (d : Dom) (q : Query) (func : String)
    (args : List JsValue) :
    (∀ d' msg, forQuery d q func args ≠ .ok (d', .errorString msg)) ∧
    (func ∈ forQueryCases → q.items = [] →
      forQuery d q func args = .ok (d, .results [])) := by
  constructor
  · intro d' msg hcontra
    unfold forQuery at hcontra
    by_cases h1 : func ∈ queryProtoMethods
    · rw [if_pos h1] at hcontra
      by_cases h2 : func ∈ forQueryCases
      · rw [if_pos h2] at hcontra
        cases hrb : runBatch d q.items func args with
        | error e =>
            rw [hrb] at hcontra
            simp [Bind.bind, Except.bind] at hcontra
        | ok pr =>
            obtain ⟨d2, rs⟩ := pr
            rw [hrb] at hcontra
            simp [Bind.bind, Except.bind, forQueryReturn_eq_results] at hcontra
      · rw [if_neg h2] at hcontra
        simp at hcontra
    · rw [if_neg h1] at hcontra
      simp [forQueryReturn_eq_results] at hcontra
  · intro hcase hempty
    have hproto : func ∈ queryProtoMethods := forQueryCases_subset func hcase
    unfold forQuery
    rw [if_pos hproto, if_pos hcase, hempty]
    rfl

/-- C10 witness: the `on` case (a recognized dispatch-table name) over an
empty collection returns the empty result list, not the error string. -/
theorem forQuery_fallback_unreachable_witness :
    forQuery demoDom ⟨[], none⟩ "on" [] = .ok (demoDom, .results []) :=
  (forQuery_fallback_unreachable demoDom ⟨[], none⟩ "on" []).2 (by decide) rfl

end SQuery
